import Mathlib

/-!
# Verification of quiet_observer's worker orchestration and sampling engine

Shallow embedding of the pure decision functions and the stateful worker
bookkeeping of `src/quiet_observer/workers/{inference,capture,manager}.py`
and the session rows of `src/quiet_observer/models.py`.

Numeric values (confidences, thresholds, box coordinates, wall-clock
seconds) are embedded as rationals; Python dicts keyed by project id are
embedded as association lists.
-/

namespace QuietObserver

/-- A normalized detection record: class name, confidence and a normalized
center-format bounding box — the shape of the detection dicts built by
`run_inference_on_frame` in `workers/inference.py`. -/
structure Det where
  class_name : String
  confidence : ℚ
  x : ℚ
  y : ℚ
  width : ℚ
  height : ℚ
deriving DecidableEq, Repr

/-- Corner-format box, the tuple returned by `_xywh_to_xyxy`. -/
structure Corners where
  x1 : ℚ
  y1 : ℚ
  x2 : ℚ
  y2 : ℚ
deriving DecidableEq, Repr

/-- `_xywh_to_xyxy` (workers/inference.py): convert a normalized center box
to corner format. -/
def xywh_to_xyxy (box : Det) : Corners :=
  { x1 := box.x - box.width / 2
    y1 := box.y - box.height / 2
    x2 := box.x + box.width / 2
    y2 := box.y + box.height / 2 }

/-- `_iou_xywh` (workers/inference.py): intersection-over-union of two
normalized center-format boxes, returning 0 when the union is non-positive. -/
def iou_xywh (first second : Det) : ℚ :=
  let a := xywh_to_xyxy first
  let b := xywh_to_xyxy second
  let inter_x1 := max a.x1 b.x1
  let inter_y1 := max a.y1 b.y1
  let inter_x2 := min a.x2 b.x2
  let inter_y2 := min a.y2 b.y2
  let inter_w := max 0 (inter_x2 - inter_x1)
  let inter_h := max 0 (inter_y2 - inter_y1)
  let inter_area := inter_w * inter_h
  let area_a := max 0 (a.x2 - a.x1) * max 0 (a.y2 - a.y1)
  let area_b := max 0 (b.x2 - b.x1) * max 0 (b.y2 - b.y1)
  let union := area_a + area_b - inter_area
  if union ≤ 0 then 0 else inter_area / union

/-- The confidence-descending order used by
`sorted(detections, key=lambda det: det["confidence"], reverse=True)`. -/
def confGE (a b : Det) : Prop := b.confidence ≤ a.confidence

instance : DecidableRel confGE := fun a b =>
  inferInstanceAs (Decidable (b.confidence ≤ a.confidence))

instance : IsTotal Det confGE := ⟨fun a b => le_total b.confidence a.confidence⟩

instance : IsTrans Det confGE := ⟨fun _ _ _ hab hbc => le_trans hbc hab⟩

/-- The greedy keep loop of `_suppress_overlapping_detections`: a candidate is
kept only if its IoU against every already-kept detection is at or below the
threshold. -/
def keepLoop (iou_threshold : ℚ) : List Det → List Det → List Det
  | kept, [] => kept
  | kept, c :: rest =>
    if ∀ e ∈ kept, iou_xywh c e ≤ iou_threshold then
      keepLoop iou_threshold (kept ++ [c]) rest
    else
      keepLoop iou_threshold kept rest

/-- `_suppress_overlapping_detections` (workers/inference.py): keep the
highest-confidence detection when boxes overlap heavily; lists of length at
most one are returned unchanged. -/
def suppress_overlapping_detections (detections : List Det) (iou_threshold : ℚ) :
    List Det :=
  if detections.length ≤ 1 then detections
  else keepLoop iou_threshold [] (List.insertionSort confGE detections)

/-- The reason component of `should_sample_frame`'s return value:
`uncertain c` stands for the string `"uncertain_confidence:{c:.2f}"`,
`autoSample` for `"auto_sample"`, and `empty` for `""`. -/
inductive SampleReason where
  | uncertain (conf : ℚ)
  | autoSample
  | empty
deriving DecidableEq, Repr

/-- The loop inside `should_sample_frame`: the confidence of the first
detection whose confidence lies in the closed band, if any. -/
def findUncertainConf (low_threshold high_threshold : ℚ) : List Det → Option ℚ
  | [] => none
  | d :: rest =>
    if low_threshold ≤ d.confidence ∧ d.confidence ≤ high_threshold then
      some d.confidence
    else findUncertainConf low_threshold high_threshold rest

/-- `should_sample_frame` (workers/inference.py): sample when some detection
has confidence inside the uncertain band, else when enough time elapsed since
the last sample, else not at all. -/
def should_sample_frame (detections : List Det)
    (last_sampled_at now auto_sample_interval low_threshold high_threshold : ℚ) :
    Bool × SampleReason :=
  match findUncertainConf low_threshold high_threshold detections with
  | some c => (true, SampleReason.uncertain c)
  | none =>
    if now - last_sampled_at ≥ auto_sample_interval then
      (true, SampleReason.autoSample)
    else (false, SampleReason.empty)

/-! ## Association-list embedding of Python dicts -/

/-- Python `dict.get(k)`: the value bound to `k`, if any. -/
def dget {κ α : Type} [DecidableEq κ] (m : List (κ × α)) (k : κ) : Option α :=
  (m.find? (fun p => decide (p.1 = k))).map Prod.snd

/-- Python `d[k] = v`: bind `k` to `v`, replacing any previous binding. -/
def dput {κ α : Type} [DecidableEq κ] (m : List (κ × α)) (k : κ) (v : α) :
    List (κ × α) :=
  (k, v) :: m.filter (fun p => decide (p.1 ≠ k))

/-- Python `d.pop(k, None)`: drop the binding of `k`, if any. -/
def dpop {κ α : Type} [DecidableEq κ] (m : List (κ × α)) (k : κ) : List (κ × α) :=
  m.filter (fun p => decide (p.1 ≠ k))

/-- Number of bindings a key has (1 for a genuine dict, but stated generally). -/
def dcount {κ α : Type} [DecidableEq κ] (m : List (κ × α)) (k : κ) : ℕ :=
  m.countP (fun p => decide (p.1 = k))

/-! ## The WorkerManager, its snapshot cache and the Python heap

`WorkerManager` (workers/manager.py) keys asyncio tasks and live snapshots
by project id.  Snapshot dicts are mutable Python objects, so the state
carries an explicit heap: snapshot dict objects and detections list objects
are addressed by references, mirroring Python object identity.  This is what
lets shallow-copy semantics of `dict(snap)` be stated faithfully. -/

/-- A Python value stored in a snapshot dict entry: scalars are copied by
value, the detections list is a reference to a mutable list object. -/
inductive PyVal where
  | pInt (n : ℤ)
  | pStr (s : String)
  | pNone
  | pListRef (r : ℕ)
deriving DecidableEq, Repr

/-- A snapshot dict object's entries. -/
abbrev SnapDict := List (String × PyVal)

/-- One asyncio task registered by the WorkerManager: `done` mirrors
`task.done()`, `sessionId` is the InferenceSession row owned by the spawned
`inference_loop`. -/
structure WTask where
  sessionId : ℕ
  done : Bool
deriving DecidableEq, Repr

/-- One row of the `inference_sessions` table (models.py `InferenceSession`);
`stopped = true` means `stopped_at` is set (non-null). -/
structure SessionRow where
  id : ℕ
  project_id : ℕ
  stopped : Bool
  model_version_id : Option ℕ
  frames_processed : ℕ
deriving DecidableEq, Repr

/-- The process state relevant to the WorkerManager: its three dicts
(workers/manager.py `__init__`), the Python heap of snapshot dict objects and
detections list objects, and the durable `inference_sessions` table. -/
structure PyState where
  sampling_tasks : List (ℕ × WTask)
  inference_tasks : List (ℕ × WTask)
  latest_refs : List (ℕ × ℕ)
  dicts : List (ℕ × SnapDict)
  lists : List (ℕ × List Det)
  nextRef : ℕ
  sessions : List SessionRow
deriving DecidableEq, Repr

/-- `is_sampling_running` (workers/manager.py): a task is registered and not
done. -/
def is_sampling_running (s : PyState) (pid : ℕ) : Bool :=
  match dget s.sampling_tasks pid with
  | none => false
  | some t => !t.done

/-- `is_inference_running` (workers/manager.py): a task is registered and not
done. -/
def is_inference_running (s : PyState) (pid : ℕ) : Bool :=
  match dget s.inference_tasks pid with
  | none => false
  | some t => !t.done

/-- `start_sampling` (workers/manager.py): returns early (a true no-op) when
an unfinished sampling task is registered; otherwise line 38 executes
`from .capture import sample_loop`, which raises `ImportError` because
workers/capture.py defines only `capture_loop` (the worker was renamed, see
the column renames in database.py, without updating this import), so no
task is ever created or registered.  The raising path is embedded as
`Except.error`. -/
def start_sampling (s : PyState) (pid : ℕ) : Except String PyState :=
  if is_sampling_running s pid then Except.ok s
  else Except.error "ImportError: cannot import name sample_loop"

/-- `start_inference` (workers/manager.py): no-op when already running,
otherwise register the freshly spawned, not-yet-done `inference_loop` task.
`sid` is the session row id the spawned loop will open. -/
def start_inference (s : PyState) (pid sid : ℕ) : PyState :=
  if is_inference_running s pid then s
  else { s with inference_tasks := dput s.inference_tasks pid ⟨sid, false⟩ }

/-- `set_latest_inference_live` (workers/manager.py): store a reference to
the caller's snapshot dict object, or clear the entry when passed `none`. -/
def set_latest_inference_live (s : PyState) (pid : ℕ) (snapshot : Option ℕ) :
    PyState :=
  match snapshot with
  | none => { s with latest_refs := dpop s.latest_refs pid }
  | some r => { s with latest_refs := dput s.latest_refs pid r }

/-- `get_latest_inference_live` (workers/manager.py): `dict(snap) if snap
else None` — look up the stored snapshot dict and, when it is non-empty,
allocate a fresh dict object with the same entries (a shallow copy: entry
values, including the reference to the detections list, are shared).  The
truthiness test conflates a missing snapshot with an empty dict. -/
def get_latest_inference_live (s : PyState) (pid : ℕ) : PyState × Option ℕ :=
  match dget s.latest_refs pid with
  | none => (s, none)
  | some r =>
    match dget s.dicts r with
    | none => (s, none)
    | some d =>
      if d.isEmpty then (s, none)
      else
        ({ s with dicts := dput s.dicts s.nextRef d, nextRef := s.nextRef + 1 },
          some s.nextRef)

/-- The `finally` block of `inference_loop` (workers/inference.py lines
371-379), which the cancelled task runs to completion while `stop_inference`
awaits it: clear the live snapshot and close the session row
(`_close_session`). -/
def inference_loop_cleanup (s : PyState) (pid sid : ℕ) : PyState :=
  { s with
    latest_refs := dpop s.latest_refs pid
    sessions := s.sessions.map (fun r =>
      if r.id = sid then { r with stopped := true } else r) }

/-- `stop_inference` (workers/manager.py): when a registered task is not yet
done, cancel it and await it (which runs the loop's `finally` cleanup and
leaves the task done); in every case drop the task registration and the live
snapshot entry.  The function is total: a missing or already-finished task is
tolerated without raising. -/
def stop_inference (s : PyState) (pid : ℕ) : PyState :=
  let s1 :=
    match dget s.inference_tasks pid with
    | some t =>
      if !t.done then
        let s2 := inference_loop_cleanup s pid t.sessionId
        { s2 with inference_tasks := dput s2.inference_tasks pid ⟨t.sessionId, true⟩ }
      else s
    | none => s
  { s1 with
    inference_tasks := dpop s1.inference_tasks pid
    latest_refs := dpop s1.latest_refs pid }

/-- In-place mutation of a snapshot dict object (`snap[key] = value` through
some alias of the object). -/
def mutate_dict (s : PyState) (r : ℕ) (k : String) (v : PyVal) : PyState :=
  match dget s.dicts r with
  | none => s
  | some d => { s with dicts := dput s.dicts r (dput d k v) }

/-- In-place mutation of a detections list object (e.g. `lst.append(...)`
through some alias): the object keeps its identity, its contents change. -/
def mutate_list (s : PyState) (r : ℕ) (xs : List Det) : PyState :=
  { s with lists := dput s.lists r xs }

/-- Read the detections of a snapshot dict object: dereference the dict,
fetch its `"detections"` entry, dereference the list object. -/
def read_detections (s : PyState) (r : ℕ) : Option (List Det) :=
  match dget s.dicts r with
  | none => none
  | some d =>
    match dget d "detections" with
    | some (PyVal.pListRef lr) => dget s.lists lr
    | _ => none

/-! ## The InferenceSession table as a transition system

The only writers of `inference_sessions` rows are in workers/inference.py:
`_close_orphaned_sessions` + `_open_session` at loop start, the mid-loop
`model_version_id` and `frames_processed` updates, and `_close_session` in
the loop's `finally`.  The table starts empty. -/

/-- `_close_orphaned_sessions` (workers/inference.py): set `stopped_at` on
every still-open session of the project. -/
def close_orphaned_sessions (t : List SessionRow) (pid : ℕ) : List SessionRow :=
  t.map (fun r =>
    if r.project_id = pid ∧ r.stopped = false then { r with stopped := true } else r)

/-- `_open_session` (workers/inference.py): insert a new open session row. -/
def open_session (t : List SessionRow) (pid sid : ℕ) : List SessionRow :=
  t ++ [{ id := sid, project_id := pid, stopped := false,
          model_version_id := none, frames_processed := 0 }]

/-- `_close_session` (workers/inference.py): set `stopped_at` on the session
row with the given id. -/
def close_session (t : List SessionRow) (sid : ℕ) : List SessionRow :=
  t.map (fun r => if r.id = sid then { r with stopped := true } else r)

/-- The session-table writes performed by the code. -/
inductive SessionEv where
  /-- loop start: `_close_orphaned_sessions(pid)` then `_open_session(pid)`
  creating row `sid`. -/
  | loopStart (pid sid : ℕ)
  /-- `_close_session(sid)` on loop exit. -/
  | loopStop (sid : ℕ)
  /-- mid-loop `sess.model_version_id = ...` update. -/
  | setModel (sid mv : ℕ)
  /-- mid-loop `sess.frames_processed = ...` update. -/
  | setFrames (sid n : ℕ)
deriving DecidableEq, Repr

/-- One session-table write. -/
def sessionStep (t : List SessionRow) : SessionEv → List SessionRow
  | .loopStart pid sid => open_session (close_orphaned_sessions t pid) pid sid
  | .loopStop sid => close_session t sid
  | .setModel sid mv =>
    t.map (fun r => if r.id = sid then { r with model_version_id := some mv } else r)
  | .setFrames sid n =>
    t.map (fun r => if r.id = sid then { r with frames_processed := n } else r)

/-- The session table after a history of writes, starting from an empty
table. -/
def runSessions (evs : List SessionEv) : List SessionRow :=
  evs.foldl sessionStep []

/-- Number of open (`stopped_at` null) sessions of a project. -/
def openCount (t : List SessionRow) (pid : ℕ) : ℕ :=
  t.countP (fun r => decide (r.project_id = pid ∧ r.stopped = false))

/-! ## Frame records and the per-tick bookkeeping -/

/-- The fields of a `frames` row (models.py `Frame`) that the
workers set. -/
structure FrameRow where
  project_id : ℕ
  file_path : String
  width : Option ℕ
  height : Option ℕ
  source : String
deriving DecidableEq, Repr

/-- The Frame record persisted by `capture_loop` (workers/capture.py lines
107-114) on a successful capture tick. -/
def capture_tick_frame (pid : ℕ) (path : String) (w h : Option ℕ) : FrameRow :=
  { project_id := pid, file_path := path, width := w, height := h,
    source := "capture" }

/-- The two declared values of `Frame.source`
(models.py line 34: `# "sampler" or "inference"`). -/
def frameSourceValues : List String := ["sampler", "inference"]

/-- The startup migration in database.py `init_db`:
`UPDATE frames SET source = 'sampler' WHERE source = 'capture'`. -/
def migrate_capture_source (frames : List FrameRow) : List FrameRow :=
  frames.map (fun f =>
    if f.source = "capture" then { f with source := "sampler" } else f)

/-- The per-project sampling configuration read at the top of each inference
tick (spec §3 `Project`; passed to `should_sample_frame` at
workers/inference.py lines 294-299). -/
structure SamplingConfig where
  auto_sample_interval : ℚ
  low_threshold : ℚ
  high_threshold : ℚ
deriving DecidableEq, Repr

/-- The value-level content of the live snapshot dict built at
workers/inference.py lines 285-292 (object identity and aliasing are studied
on `PyState` instead). -/
structure LiveSnapshotV where
  tick_id : ℕ
  width : Option ℕ
  height : Option ℕ
  file_path : String
  detections : List Det
deriving DecidableEq, Repr

/-- The loop-local counters of `inference_loop`. -/
structure TickState where
  live_tick_id : ℕ
  frames_processed : ℕ
  last_sampled_at : ℚ
deriving DecidableEq, Repr

/-- Everything one tick produces. -/
structure TickOutcome where
  state : TickState
  snapshot : LiveSnapshotV
  persisted : Option FrameRow
  sessions : List SessionRow
deriving Repr

/-- The tail of one `inference_loop` tick after a successful frame grab and
detection pass (workers/inference.py lines 281-350): increment the live tick
id and refresh the snapshot, decide sampling, persist a `source="inference"`
frame only on a positive decision (advancing `last_sampled_at`), then
increment `frames_processed` and write it to the session row — the snapshot
refresh and the counter increment are unconditional. -/
def inference_tick_body (st : TickState) (pid sid : ℕ) (now : ℚ)
    (cfg : SamplingConfig) (dets : List Det) (w h : Option ℕ)
    (live_path sampled_path : String) (sessions : List SessionRow) :
    TickOutcome :=
  let tick := st.live_tick_id + 1
  let snap : LiveSnapshotV :=
    { tick_id := tick, width := w, height := h, file_path := live_path,
      detections := dets }
  let dec := should_sample_frame dets st.last_sampled_at now
    cfg.auto_sample_interval cfg.low_threshold cfg.high_threshold
  let persisted : Option FrameRow :=
    if dec.1 then
      some { project_id := pid, file_path := sampled_path, width := w,
             height := h, source := "inference" }
    else none
  let last' := if dec.1 then now else st.last_sampled_at
  let fp := st.frames_processed + 1
  let sessions' := sessions.map (fun r =>
    if r.id = sid then { r with frames_processed := fp } else r)
  { state := { live_tick_id := tick, frames_processed := fp,
               last_sampled_at := last' },
    snapshot := snap, persisted := persisted, sessions := sessions' }

/-- One `inference_loop` tick tail as shipped: the sampling configuration is
read from the ORM `Project` row at workers/inference.py lines 296-298, but
models.py `Project` declares none of `auto_sample_interval_seconds`,
`low_confidence_threshold`, `high_confidence_threshold`, so that read raises
`AttributeError`; the tick-boundary handler (line 361) catches it after the
live snapshot was already refreshed (lines 284-292) and before the frame
persist and the `frames_processed` increment (line 338).  `cfg = none`
models the missing attributes — the shipped state of models.py; `cfg = some`
models the configuration the rest of the code expects. -/
def inference_tick_run (st : TickState) (pid sid : ℕ) (now : ℚ)
    (cfg : Option SamplingConfig) (dets : List Det) (w h : Option ℕ)
    (live_path sampled_path : String) (sessions : List SessionRow) :
    TickOutcome :=
  match cfg with
  | some c =>
    inference_tick_body st pid sid now c dets w h live_path sampled_path
      sessions
  | none =>
    { state := { live_tick_id := st.live_tick_id + 1
                 frames_processed := st.frames_processed
                 last_sampled_at := st.last_sampled_at }
      snapshot := { tick_id := st.live_tick_id + 1, width := w, height := h,
                    file_path := live_path, detections := dets }
      persisted := none
      sessions := sessions }

/-- Example detection used to exhibit snapshot aliasing. -/
def c9Det : Det :=
  { class_name := "bird", confidence := 1/2, x := 1/2, y := 1/2,
    width := 1/10, height := 1/10 }

/-- Example stored snapshot dict object: a tick id and a reference to the
detections list object at address 10. -/
def c9Dict : SnapDict :=
  [("tick_id", PyVal.pInt 1), ("detections", PyVal.pListRef 10)]

/-- Example process state: project 1's live snapshot is the dict object at
address 0, whose detections list object at address 10 holds one
detection. -/
def c9State : PyState :=
  { sampling_tasks := [], inference_tasks := [], latest_refs := [(1, 0)],
    dicts := [(0, c9Dict)], lists := [(10, [c9Det])], nextRef := 11,
    sessions := [] }

/-! ## Lemmas about the IoU computation -/

theorem iou_comm (a b : Det) : iou_xywh a b = iou_xywh b a := by
  simp only [iou_xywh]
  rw [max_comm (xywh_to_xyxy a).x1, max_comm (xywh_to_xyxy a).y1,
    min_comm (xywh_to_xyxy a).x2, min_comm (xywh_to_xyxy a).y2,
    add_comm (max 0 ((xywh_to_xyxy a).x2 - (xywh_to_xyxy a).x1) * _)]

theorem iou_self (b : Det) (hw : 0 < b.width) (hh : 0 < b.height) :
    iou_xywh b b = 1 := by
  simp only [iou_xywh, xywh_to_xyxy, max_self, min_self]
  have e1 : b.x + b.width / 2 - (b.x - b.width / 2) = b.width := by ring
  have e2 : b.y + b.height / 2 - (b.y - b.height / 2) = b.height := by ring
  rw [e1, e2, max_eq_right hw.le, max_eq_right hh.le]
  have hpos : 0 < b.width * b.height := mul_pos hw hh
  have hu : b.width * b.height + b.width * b.height - b.width * b.height
      = b.width * b.height := by ring
  rw [hu, if_neg (not_le.mpr hpos), div_self hpos.ne']

theorem iou_disjoint (a b : Det)
    (h : (xywh_to_xyxy a).x2 ≤ (xywh_to_xyxy b).x1
      ∨ (xywh_to_xyxy b).x2 ≤ (xywh_to_xyxy a).x1
      ∨ (xywh_to_xyxy a).y2 ≤ (xywh_to_xyxy b).y1
      ∨ (xywh_to_xyxy b).y2 ≤ (xywh_to_xyxy a).y1) :
    iou_xywh a b = 0 := by
  simp only [iou_xywh]
  have hI : max 0 (min (xywh_to_xyxy a).x2 (xywh_to_xyxy b).x2
        - max (xywh_to_xyxy a).x1 (xywh_to_xyxy b).x1)
      * max 0 (min (xywh_to_xyxy a).y2 (xywh_to_xyxy b).y2
        - max (xywh_to_xyxy a).y1 (xywh_to_xyxy b).y1) = 0 := by
    rcases h with h | h | h | h
    · rw [max_eq_left (sub_nonpos.mpr ((min_le_left _ _).trans
        (h.trans (le_max_right _ _)))), zero_mul]
    · rw [max_eq_left (sub_nonpos.mpr ((min_le_right _ _).trans
        (h.trans (le_max_left _ _)))), zero_mul]
    · rw [max_eq_left (sub_nonpos.mpr ((min_le_left _ _).trans
        (h.trans (le_max_right _ _)))), mul_zero]
    · rw [max_eq_left (sub_nonpos.mpr ((min_le_right _ _).trans
        (h.trans (le_max_left _ _)))), mul_zero]
  rw [hI]
  split_ifs <;> simp

theorem iou_contained_half (a b : Det)
    (hx1 : (xywh_to_xyxy a).x1 ≤ (xywh_to_xyxy b).x1)
    (hx2 : (xywh_to_xyxy b).x2 ≤ (xywh_to_xyxy a).x2)
    (hy1 : (xywh_to_xyxy a).y1 ≤ (xywh_to_xyxy b).y1)
    (hy2 : (xywh_to_xyxy b).y2 ≤ (xywh_to_xyxy a).y2)
    (hbw : 0 < b.width) (hbh : 0 < b.height)
    (harea : a.width * a.height = 2 * (b.width * b.height)) :
    iou_xywh a b = 1 / 2 := by
  simp only [xywh_to_xyxy] at hx1 hx2 hy1 hy2
  have haw : 0 < a.width := by linarith
  have hah : 0 < a.height := by linarith
  simp only [iou_xywh, xywh_to_xyxy]
  rw [min_eq_right hx2, max_eq_right hx1, min_eq_right hy2, max_eq_right hy1]
  have eb1 : b.x + b.width / 2 - (b.x - b.width / 2) = b.width := by ring
  have eb2 : b.y + b.height / 2 - (b.y - b.height / 2) = b.height := by ring
  have ea1 : a.x + a.width / 2 - (a.x - a.width / 2) = a.width := by ring
  have ea2 : a.y + a.height / 2 - (a.y - a.height / 2) = a.height := by ring
  rw [eb1, eb2, ea1, ea2, max_eq_right hbw.le, max_eq_right hbh.le,
    max_eq_right haw.le, max_eq_right hah.le]
  have hu : a.width * a.height + b.width * b.height - b.width * b.height
      = 2 * (b.width * b.height) := by rw [harea]; ring
  rw [hu]
  have hbpos : 0 < b.width * b.height := mul_pos hbw hbh
  rw [if_neg (by linarith), div_eq_iff (by linarith)]
  ring

/-! ## Lemmas about the greedy suppression loop -/

theorem keepLoop_shape (τ : ℚ) (rest : List Det) :
    ∀ kept, ∃ s, keepLoop τ kept rest = kept ++ s ∧ s.Sublist rest := by
  induction rest with
  | nil => intro kept; exact ⟨[], by simp [keepLoop]⟩
  | cons c rest ih =>
    intro kept
    by_cases h : ∀ e ∈ kept, iou_xywh c e ≤ τ
    · rcases ih (kept ++ [c]) with ⟨s, hs, hsub⟩
      refine ⟨c :: s, ?_, hsub.cons₂ c⟩
      simp only [keepLoop, if_pos h, hs]
      simp
    · rcases ih kept with ⟨s, hs, hsub⟩
      exact ⟨s, by simp only [keepLoop, if_neg h, hs], hsub.cons c⟩

theorem keepLoop_pairwise (τ : ℚ) (rest : List Det) :
    ∀ kept, kept.Pairwise (fun a b => iou_xywh a b ≤ τ) →
      (keepLoop τ kept rest).Pairwise (fun a b => iou_xywh a b ≤ τ) := by
  induction rest with
  | nil => intro kept hk; simpa [keepLoop] using hk
  | cons c rest ih =>
    intro kept hk
    by_cases h : ∀ e ∈ kept, iou_xywh c e ≤ τ
    · simp only [keepLoop, if_pos h]
      apply ih
      refine List.pairwise_append.mpr ⟨hk, List.pairwise_singleton _ _, ?_⟩
      intro a ha b hb
      rw [List.mem_singleton] at hb
      subst hb
      rw [iou_comm]
      exact h a ha
    · simp only [keepLoop, if_neg h]
      exact ih kept hk

theorem keepLoop_of_pairwise (τ : ℚ) (rest : List Det) :
    ∀ kept, (kept ++ rest).Pairwise (fun a b => iou_xywh a b ≤ τ) →
      keepLoop τ kept rest = kept ++ rest := by
  induction rest with
  | nil => intro kept _; simp [keepLoop]
  | cons c rest ih =>
    intro kept h
    have hc : ∀ e ∈ kept, iou_xywh c e ≤ τ := by
      intro e he
      have := (List.pairwise_append.mp h).2.2 e he c (List.mem_cons_self c rest)
      rwa [iou_comm]
    have h' : ((kept ++ [c]) ++ rest).Pairwise (fun a b => iou_xywh a b ≤ τ) := by
      simpa using h
    simp only [keepLoop, if_pos hc, ih (kept ++ [c]) h']
    simp

/-! ## Lemmas about the sampling decision -/

theorem findUncertainConf_isSome_iff (low high : ℚ) (dets : List Det) :
    (∃ c, findUncertainConf low high dets = some c) ↔
      ∃ d ∈ dets, low ≤ d.confidence ∧ d.confidence ≤ high := by
  induction dets with
  | nil => simp [findUncertainConf]
  | cons d rest ih =>
    by_cases h : low ≤ d.confidence ∧ d.confidence ≤ high
    · simp only [findUncertainConf, if_pos h]
      constructor
      · intro _; exact ⟨d, List.mem_cons_self d rest, h⟩
      · intro _; exact ⟨d.confidence, rfl⟩
    · simp only [findUncertainConf, if_neg h, ih, List.mem_cons]
      constructor
      · rintro ⟨x, hx, hb⟩; exact ⟨x, Or.inr hx, hb⟩
      · rintro ⟨x, hx | hx, hb⟩
        · subst hx; exact absurd hb h
        · exact ⟨x, hx, hb⟩

/-! ## Shape lemmas for the suppression entry point -/

theorem suppress_short (l : List Det) (τ : ℚ) (h : l.length ≤ 1) :
    suppress_overlapping_detections l τ = l := by
  unfold suppress_overlapping_detections
  rw [if_pos h]

theorem suppress_long (l : List Det) (τ : ℚ) (h : ¬ l.length ≤ 1) :
    suppress_overlapping_detections l τ
      = keepLoop τ [] (List.insertionSort confGE l) := by
  unfold suppress_overlapping_detections
  rw [if_neg h]

/-! ## Claim theorems: the pure decision functions -/

/-- C1: for every detection list, thresholds low < high, elapsed time and
auto-sample interval, `should_sample_frame` returns sample = true with the
uncertain-confidence reason iff some detection's confidence lies in the
closed band [low, high] (this rule is checked first); otherwise it returns
sample = true with the auto-sample reason iff the elapsed time since the
last persisted sample reaches the interval, and sample = false otherwise.
Detections strictly outside the band never cause sampling by themselves. -/
theorem C1_should_sample_frame_decision (dets : List Det)
    (last now autoInt low high : ℚ) (_hlh : low < high) :
    ((∃ c, should_sample_frame dets last now autoInt low high
        = (true, SampleReason.uncertain c)) ↔
      ∃ d ∈ dets, low ≤ d.confidence ∧ d.confidence ≤ high)
    ∧ ((¬ ∃ d ∈ dets, low ≤ d.confidence ∧ d.confidence ≤ high) →
        should_sample_frame dets last now autoInt low high
          = if now - last ≥ autoInt then (true, SampleReason.autoSample)
            else (false, SampleReason.empty))
    ∧ ((∀ d ∈ dets, d.confidence < low ∨ high < d.confidence) →
        now - last < autoInt →
        (should_sample_frame dets last now autoInt low high).1 = false) := by
  have key := findUncertainConf_isSome_iff low high dets
  have hnone_of : (¬ ∃ d ∈ dets, low ≤ d.confidence ∧ d.confidence ≤ high) →
      findUncertainConf low high dets = none := by
    intro hn
    cases h : findUncertainConf low high dets with
    | none => rfl
    | some c => exact absurd (key.mp ⟨c, h⟩) hn
  refine ⟨?_, ?_, ?_⟩
  · constructor
    · rintro ⟨c, hc⟩
      cases h : findUncertainConf low high dets with
      | some c2 => exact key.mp ⟨c2, h⟩
      | none =>
        exfalso
        simp only [should_sample_frame, h] at hc
        split_ifs at hc <;> simp_all
    · intro hex
      rcases key.mpr hex with ⟨c, hc⟩
      exact ⟨c, by simp only [should_sample_frame, hc]⟩
  · intro hn
    simp only [should_sample_frame, hnone_of hn]
  · intro hout hlt
    have hn : ¬ ∃ d ∈ dets, low ≤ d.confidence ∧ d.confidence ≤ high := by
      rintro ⟨d, hd, h1, h2⟩
      rcases hout d hd with h | h
      · exact absurd h1 (not_le.mpr h)
      · exact absurd h2 (not_le.mpr h)
    simp only [should_sample_frame, hnone_of hn]
    rw [if_neg (not_le.mpr hlt)]

/-- C1 witness: detections = [confidence 1/2], thresholds 3/10 < 7/10 —
sampling happens with the uncertain-confidence reason. -/
theorem C1_witness :
    (3 : ℚ)/10 < 7/10
    ∧ (∃ c, should_sample_frame [⟨"bird", 1/2, 0, 0, 0, 0⟩] 0 0 600 (3/10) (7/10)
        = (true, SampleReason.uncertain c)) :=
  ⟨by norm_num,
   (C1_should_sample_frame_decision [⟨"bird", 1/2, 0, 0, 0, 0⟩] 0 0 600 (3/10)
      (7/10) (by norm_num)).1.mpr
     ⟨⟨"bird", 1/2, 0, 0, 0, 0⟩, by simp, by norm_num, by norm_num⟩⟩

/-- C2: overlap suppression returns a subset of its input in which no two
kept detections have IoU above the threshold; re-running it on its own
output returns the output unchanged; and inputs with zero or one detection
pass through unchanged. -/
theorem C2_suppress_overlapping_spec (τ : ℚ) (dets : List Det) :
    (∀ x ∈ suppress_overlapping_detections dets τ, x ∈ dets)
    ∧ (suppress_overlapping_detections dets τ).Pairwise
        (fun a b => iou_xywh a b ≤ τ)
    ∧ suppress_overlapping_detections (suppress_overlapping_detections dets τ) τ
        = suppress_overlapping_detections dets τ
    ∧ (dets.length ≤ 1 → suppress_overlapping_detections dets τ = dets) := by
  by_cases hlen : dets.length ≤ 1
  · have heq := suppress_short dets τ hlen
    have hpwshort : dets.Pairwise (fun a b => iou_xywh a b ≤ τ) := by
      rcases dets with _ | ⟨a, _ | ⟨b, t⟩⟩
      · exact List.Pairwise.nil
      · exact List.pairwise_singleton _ _
      · simp at hlen
    refine ⟨?_, ?_, ?_, fun _ => heq⟩
    · rw [heq]; exact fun x hx => hx
    · rw [heq]; exact hpwshort
    · rw [heq]; exact heq
  · have hout := suppress_long dets τ hlen
    obtain ⟨s, hs, hsub⟩ := keepLoop_shape τ (List.insertionSort confGE dets) []
    rw [List.nil_append] at hs
    have hsubset : ∀ x ∈ suppress_overlapping_detections dets τ, x ∈ dets := by
      intro x hx
      rw [hout, hs] at hx
      have hx2 : x ∈ List.insertionSort confGE dets := hsub.subset hx
      rwa [List.mem_insertionSort] at hx2
    have hpw : (suppress_overlapping_detections dets τ).Pairwise
        (fun a b => iou_xywh a b ≤ τ) := by
      rw [hout]
      exact keepLoop_pairwise τ _ [] List.Pairwise.nil
    have hsorted : (suppress_overlapping_detections dets τ).Pairwise confGE := by
      rw [hout, hs]
      exact List.Pairwise.sublist hsub (List.sorted_insertionSort confGE dets)
    refine ⟨hsubset, hpw, ?_, fun h => absurd h hlen⟩
    by_cases h2 : (suppress_overlapping_detections dets τ).length ≤ 1
    · exact suppress_short _ τ h2
    · rw [suppress_long _ τ h2, List.Sorted.insertionSort_eq hsorted]
      have hall := keepLoop_of_pairwise τ (suppress_overlapping_detections dets τ)
        [] (by simpa using hpw)
      simpa using hall

/-- C2 witness: a single detection passes through unchanged. -/
theorem C2_witness :
    ([⟨"bird", 1/2, 0, 0, 1/10, 1/10⟩] : List Det).length ≤ 1
    ∧ suppress_overlapping_detections [⟨"bird", 1/2, 0, 0, 1/10, 1/10⟩] (9/10)
        = [⟨"bird", 1/2, 0, 0, 1/10, 1/10⟩] :=
  ⟨by simp,
   (C2_suppress_overlapping_spec (9/10) [⟨"bird", 1/2, 0, 0, 1/10, 1/10⟩]).2.2.2
     (by simp)⟩

/-- C8: two identical boxes of positive extent have IoU = 1; two boxes
separated on some axis (disjoint interiors) have IoU = 0; a box containing
another box of half its area gives IoU = 1/2. -/
theorem C8_iou_values :
    (∀ b : Det, 0 < b.width → 0 < b.height → iou_xywh b b = 1)
    ∧ (∀ a b : Det,
        ((xywh_to_xyxy a).x2 ≤ (xywh_to_xyxy b).x1
          ∨ (xywh_to_xyxy b).x2 ≤ (xywh_to_xyxy a).x1
          ∨ (xywh_to_xyxy a).y2 ≤ (xywh_to_xyxy b).y1
          ∨ (xywh_to_xyxy b).y2 ≤ (xywh_to_xyxy a).y1) →
        iou_xywh a b = 0)
    ∧ (∀ a b : Det,
        (xywh_to_xyxy a).x1 ≤ (xywh_to_xyxy b).x1 →
        (xywh_to_xyxy b).x2 ≤ (xywh_to_xyxy a).x2 →
        (xywh_to_xyxy a).y1 ≤ (xywh_to_xyxy b).y1 →
        (xywh_to_xyxy b).y2 ≤ (xywh_to_xyxy a).y2 →
        0 < b.width → 0 < b.height →
        a.width * a.height = 2 * (b.width * b.height) →
        iou_xywh a b = 1 / 2) :=
  ⟨iou_self, iou_disjoint, iou_contained_half⟩

/-- C8 witness: concrete boxes — identical 2×2 boxes give IoU 1, far-apart
unit boxes give IoU 0, and a 2×1 box inside a 2×2 box gives IoU 1/2. -/
theorem C8_witness :
    iou_xywh ⟨"a", 1, 2, 2, 2, 2⟩ ⟨"a", 1, 2, 2, 2, 2⟩ = 1
    ∧ iou_xywh ⟨"a", 1, 0, 0, 1, 1⟩ ⟨"b", 1, 10, 10, 1, 1⟩ = 0
    ∧ iou_xywh ⟨"a", 1, 2, 2, 2, 2⟩ ⟨"b", 1, 2, 3/2, 2, 1⟩ = 1 / 2 :=
  ⟨C8_iou_values.1 ⟨"a", 1, 2, 2, 2, 2⟩ (by norm_num) (by norm_num),
   C8_iou_values.2.1 ⟨"a", 1, 0, 0, 1, 1⟩ ⟨"b", 1, 10, 10, 1, 1⟩
     (Or.inl (by norm_num [xywh_to_xyxy])),
   C8_iou_values.2.2 ⟨"a", 1, 2, 2, 2, 2⟩ ⟨"b", 1, 2, 3/2, 2, 1⟩
     (by norm_num [xywh_to_xyxy]) (by norm_num [xywh_to_xyxy])
     (by norm_num [xywh_to_xyxy]) (by norm_num [xywh_to_xyxy])
     (by norm_num) (by norm_num) (by norm_num)⟩

/-! ## Dict lemmas -/

theorem find?_filter_of_imp {α : Type} (l : List α) (q pred : α → Bool)
    (h : ∀ x, q x = true → pred x = true) :
    (l.filter pred).find? q = l.find? q := by
  induction l with
  | nil => rfl
  | cons x l ih =>
    cases hp : pred x with
    | true =>
      rw [List.filter_cons_of_pos hp]
      cases hq : q x with
      | true => rw [List.find?_cons_of_pos _ hq, List.find?_cons_of_pos _ hq]
      | false =>
        rw [List.find?_cons_of_neg _ (by simp [hq]),
          List.find?_cons_of_neg _ (by simp [hq]), ih]
    | false =>
      have hq : q x = false := by
        cases hqx : q x with
        | true => rw [h x hqx] at hp; cases hp
        | false => rfl
      rw [List.filter_cons_of_neg (by simp [hp]), ih,
        List.find?_cons_of_neg _ (by simp [hq])]

theorem dget_dput_self {κ α : Type} [DecidableEq κ] (m : List (κ × α)) (k : κ)
    (v : α) : dget (dput m k v) k = some v := by
  unfold dget dput
  rw [List.find?_cons_of_pos _ (by simp)]
  rfl

theorem dget_dput_ne {κ α : Type} [DecidableEq κ] (m : List (κ × α)) (k k2 : κ)
    (v : α) (h : k2 ≠ k) : dget (dput m k v) k2 = dget m k2 := by
  unfold dget dput
  rw [List.find?_cons_of_neg _ (by simp [Ne.symm h])]
  rw [find?_filter_of_imp m _ _ ?_]
  intro x hx
  simp only [decide_eq_true_eq] at hx ⊢
  rw [hx]
  exact h

theorem dget_dpop_self {κ α : Type} [DecidableEq κ] (m : List (κ × α)) (k : κ) :
    dget (dpop m k) k = none := by
  unfold dget dpop
  rw [List.find?_eq_none.mpr]
  · rfl
  · intro x hx
    simp only [List.mem_filter, decide_eq_true_eq] at hx
    simp [hx.2]

theorem dpop_eq_self_of_dget_none {κ α : Type} [DecidableEq κ]
    {m : List (κ × α)} {k : κ} (h : dget m k = none) : dpop m k = m := by
  unfold dget at h
  rw [Option.map_eq_none', List.find?_eq_none] at h
  apply List.filter_eq_self.mpr
  intro a ha
  have := h a ha
  simp only [decide_eq_true_eq] at this ⊢
  exact this

theorem dcount_dput_self {κ α : Type} [DecidableEq κ] (m : List (κ × α))
    (k : κ) (v : α) : dcount (dput m k v) k = 1 := by
  unfold dcount dput
  rw [List.countP_cons]
  have hz : (m.filter (fun p => decide (p.1 ≠ k))).countP
      (fun p => decide (p.1 = k)) = 0 := by
    apply List.countP_eq_zero.mpr
    intro a ha
    simp only [List.mem_filter, decide_eq_true_eq] at ha
    simp [ha.2]
  simp [hz]

theorem dcount_pos_of_dget_some {κ α : Type} [DecidableEq κ]
    {m : List (κ × α)} {k : κ} {v : α} (h : dget m k = some v) :
    1 ≤ dcount m k := by
  unfold dget at h
  rw [Option.map_eq_some'] at h
  obtain ⟨p, hp, _⟩ := h
  have hmem := List.mem_of_find?_eq_some hp
  have hpred := List.find?_some hp
  exact List.countP_pos_iff.mpr ⟨p, hmem, hpred⟩

/-! ## Claim theorems: WorkerManager start/stop -/

/-- C3 (documents the defect): the `start_inference` half of the claim holds
— no-op when an unfinished task is registered, otherwise the fresh not-done
task is registered, and two consecutive calls equal one, leaving exactly one
registered inference task — but the `startCapture` half fails on the code:
whenever no unfinished sampling task is registered, `start_sampling` raises
`ImportError` at workers/manager.py line 38 (`from .capture` it imports
`sample_loop`, which workers/capture.py does not define), so it can never
spawn or register anything; a successful return only ever occurs on the
already-running no-op path and leaves the state unchanged. -/
theorem C3_start_idempotence_and_sampling_import_error (s : PyState)
    (pid sid sid2 : ℕ) :
    (is_inference_running s pid = true → start_inference s pid sid = s)
    ∧ (is_inference_running s pid = false →
        dget (start_inference s pid sid).inference_tasks pid
          = some ⟨sid, false⟩)
    ∧ (is_sampling_running s pid = true → start_sampling s pid = Except.ok s)
    ∧ (is_sampling_running s pid = false →
        start_sampling s pid
          = Except.error "ImportError: cannot import name sample_loop")
    ∧ (∀ s2 : PyState, start_sampling s pid = Except.ok s2 → s2 = s)
    ∧ (start_inference (start_inference s pid sid) pid sid2
        = start_inference s pid sid)
    ∧ ((∀ k, dcount s.inference_tasks k ≤ 1) →
        dcount (start_inference (start_inference s pid sid) pid
          sid2).inference_tasks pid = 1) := by
  have hstart_pos : ∀ (st : PyState) (sid3 : ℕ),
      is_inference_running st pid = true → start_inference st pid sid3 = st := by
    intro st sid3 h
    unfold start_inference
    rw [if_pos h]
  have hstart_neg : ∀ (st : PyState) (sid3 : ℕ),
      is_inference_running st pid = false →
      dget (start_inference st pid sid3).inference_tasks pid
        = some ⟨sid3, false⟩ := by
    intro st sid3 h
    unfold start_inference
    rw [if_neg (by simp [h])]
    exact dget_dput_self _ _ _
  have hidem : start_inference (start_inference s pid sid) pid sid2
      = start_inference s pid sid := by
    cases hr : is_inference_running s pid with
    | true =>
      rw [hstart_pos s sid hr]
      exact hstart_pos s sid2 hr
    | false =>
      have hrun2 : is_inference_running (start_inference s pid sid) pid
          = true := by
        unfold is_inference_running
        rw [hstart_neg s sid hr]
        rfl
      exact hstart_pos _ sid2 hrun2
  refine ⟨hstart_pos s sid, hstart_neg s sid, ?_, ?_, ?_, hidem, ?_⟩
  · intro h
    unfold start_sampling
    rw [if_pos h]
  · intro h
    unfold start_sampling
    rw [if_neg (by simp [h])]
  · intro s2 hok
    unfold start_sampling at hok
    by_cases h : is_sampling_running s pid = true
    · rw [if_pos h] at hok
      injection hok with he
      exact he.symm
    · rw [if_neg h] at hok
      cases hok
  · intro hwf
    rw [hidem]
    cases hr : is_inference_running s pid with
    | true =>
      rw [hstart_pos s sid hr]
      obtain ⟨t, ht⟩ : ∃ t, dget s.inference_tasks pid = some t := by
        unfold is_inference_running at hr
        cases h : dget s.inference_tasks pid with
        | none => rw [h] at hr; cases hr
        | some t => exact ⟨t, rfl⟩
      exact le_antisymm (hwf pid) (dcount_pos_of_dget_some ht)
    | false =>
      unfold start_inference
      rw [if_neg (by simp [hr])]
      exact dcount_dput_self _ _ _

/-- C3 witness: from the empty state, starting inference twice registers the
first task and leaves exactly one registered task, while `start_sampling`
raises `ImportError` instead of registering anything. -/
theorem C3_witness :
    dget (start_inference ⟨[], [], [], [], [], 0, []⟩ 1 5).inference_tasks 1
      = some ⟨5, false⟩
    ∧ dcount (start_inference (start_inference ⟨[], [], [], [], [], 0, []⟩ 1 5)
        1 7).inference_tasks 1 = 1
    ∧ start_sampling ⟨[], [], [], [], [], 0, []⟩ 1
      = Except.error "ImportError: cannot import name sample_loop" :=
  ⟨(C3_start_idempotence_and_sampling_import_error
      ⟨[], [], [], [], [], 0, []⟩ 1 5 7).2.1 rfl,
   (C3_start_idempotence_and_sampling_import_error
      ⟨[], [], [], [], [], 0, []⟩ 1 5 7).2.2.2.2.2.2
     (fun k => by simp [dcount]),
   (C3_start_idempotence_and_sampling_import_error
      ⟨[], [], [], [], [], 0, []⟩ 1 5 7).2.2.2.1 rfl⟩

/-- C4: after `stop_inference` returns, no inference task for the project is
running, the live snapshot is gone (`get_latest_inference_live` returns
none), and — when a not-yet-done task was registered — the session row that
task owned has been closed by the loop's awaited cleanup.  On a project with
neither a registered task nor a stored snapshot the call leaves the state
completely unchanged (the loop's `finally` always clears its snapshot entry,
so a not-running project stores none); the function is total, so a missing
or already-finished task never raises. -/
theorem C4_stop_inference_contract (s : PyState) (pid : ℕ) :
    (is_inference_running (stop_inference s pid) pid = false)
    ∧ (dget (stop_inference s pid).latest_refs pid = none)
    ∧ ((get_latest_inference_live (stop_inference s pid) pid).2 = none)
    ∧ (∀ t : WTask, dget s.inference_tasks pid = some t → t.done = false →
        ∀ r ∈ s.sessions, r.id = t.sessionId →
          { r with stopped := true } ∈ (stop_inference s pid).sessions)
    ∧ (dget s.inference_tasks pid = none → dget s.latest_refs pid = none →
        stop_inference s pid = s) := by
  have hrun : is_inference_running (stop_inference s pid) pid = false := by
    unfold stop_inference is_inference_running
    rw [dget_dpop_self]
  have hlat : dget (stop_inference s pid).latest_refs pid = none := by
    unfold stop_inference
    exact dget_dpop_self _ _
  refine ⟨hrun, hlat, ?_, ?_, ?_⟩
  · unfold get_latest_inference_live
    rw [hlat]
  · intro t ht hdone r hr hid
    unfold stop_inference
    rw [ht]
    simp only [hdone, Bool.not_false, if_pos]
    unfold inference_loop_cleanup
    exact List.mem_map.mpr ⟨r, hr, by rw [if_pos hid]⟩
  · intro ht hl
    unfold stop_inference
    rw [ht]
    simp only
    rw [dpop_eq_self_of_dget_none ht, dpop_eq_self_of_dget_none hl]

/-- C4 witness: stopping a running worker closes its session and clears the
snapshot; stopping on an untouched project is the identity. -/
theorem C4_witness :
    (is_inference_running (stop_inference
        ⟨[], [(1, ⟨0, false⟩)], [(1, 5)], [(5, [("tick_id", PyVal.pInt 1)])],
          [], 6, [⟨0, 1, false, none, 0⟩]⟩ 1) 1 = false)
    ∧ ((get_latest_inference_live (stop_inference
        ⟨[], [(1, ⟨0, false⟩)], [(1, 5)], [(5, [("tick_id", PyVal.pInt 1)])],
          [], 6, [⟨0, 1, false, none, 0⟩]⟩ 1) 1).2 = none)
    ∧ (({ id := 0, project_id := 1, stopped := true, model_version_id := none,
          frames_processed := 0 } : SessionRow)
        ∈ (stop_inference
            ⟨[], [(1, ⟨0, false⟩)], [(1, 5)], [(5, [("tick_id", PyVal.pInt 1)])],
              [], 6, [⟨0, 1, false, none, 0⟩]⟩ 1).sessions)
    ∧ stop_inference ⟨[], [], [], [], [], 0, []⟩ 1 = ⟨[], [], [], [], [], 0, []⟩ :=
  ⟨(C4_stop_inference_contract _ 1).1,
   (C4_stop_inference_contract _ 1).2.2.1,
   (C4_stop_inference_contract
      ⟨[], [(1, ⟨0, false⟩)], [(1, 5)], [(5, [("tick_id", PyVal.pInt 1)])],
        [], 6, [⟨0, 1, false, none, 0⟩]⟩ 1).2.2.2.1
     ⟨0, false⟩ rfl rfl ⟨0, 1, false, none, 0⟩ (by simp) rfl,
   (C4_stop_inference_contract ⟨[], [], [], [], [], 0, []⟩ 1).2.2.2.2 rfl rfl⟩

/-! ## Session-table lemmas -/

theorem openCount_close_orphaned (t : List SessionRow) (pid : ℕ) :
    openCount (close_orphaned_sessions t pid) pid = 0 := by
  unfold openCount close_orphaned_sessions
  rw [List.countP_map]
  apply List.countP_eq_zero.mpr
  intro r _
  by_cases h : r.project_id = pid ∧ r.stopped = false
  · simp [Function.comp, if_pos h]
  · simp only [Function.comp, if_neg h, decide_eq_true_eq]
    exact h

theorem openCount_open_session (t : List SessionRow) (pid sid : ℕ) :
    openCount (open_session t pid sid) pid = openCount t pid + 1 := by
  unfold openCount open_session
  rw [List.countP_append]
  simp

theorem openCount_map_le (t : List SessionRow) (pid : ℕ)
    (f : SessionRow → SessionRow)
    (h : ∀ r, (f r).project_id = pid ∧ (f r).stopped = false →
      r.project_id = pid ∧ r.stopped = false) :
    openCount (t.map f) pid ≤ openCount t pid := by
  unfold openCount
  rw [List.countP_map]
  apply List.countP_mono_left
  intro r _ hr
  simp only [Function.comp, decide_eq_true_eq] at hr ⊢
  exact h r hr

theorem openCount_map_eq (t : List SessionRow) (pid : ℕ)
    (f : SessionRow → SessionRow)
    (h : ∀ r, (f r).project_id = r.project_id ∧ (f r).stopped = r.stopped) :
    openCount (t.map f) pid = openCount t pid := by
  unfold openCount
  rw [List.countP_map]
  apply List.countP_congr
  intro r _
  simp only [Function.comp, decide_eq_true_eq, (h r).1, (h r).2]

theorem openCount_map_congr (t : List SessionRow) (pid : ℕ)
    (f : SessionRow → SessionRow)
    (h : ∀ r, ((f r).project_id = pid ∧ (f r).stopped = false) ↔
      (r.project_id = pid ∧ r.stopped = false)) :
    openCount (t.map f) pid = openCount t pid := by
  unfold openCount
  rw [List.countP_map]
  apply List.countP_congr
  intro r _
  simp only [Function.comp, decide_eq_true_eq]
  exact h r

theorem openCount_step_le (t : List SessionRow) (e : SessionEv) (pid : ℕ)
    (h : openCount t pid ≤ 1) : openCount (sessionStep t e) pid ≤ 1 := by
  cases e with
  | loopStart pid2 sid =>
    by_cases hp : pid2 = pid
    · subst hp
      show openCount (open_session (close_orphaned_sessions t pid2) pid2 sid)
        pid2 ≤ 1
      rw [openCount_open_session, openCount_close_orphaned]
    · show openCount (open_session (close_orphaned_sessions t pid2) pid2 sid)
        pid ≤ 1
      have h1 : openCount (close_orphaned_sessions t pid2) pid
          = openCount t pid := by
        unfold close_orphaned_sessions
        apply openCount_map_congr
        intro r
        by_cases hr : r.project_id = pid2 ∧ r.stopped = false
        · rw [if_pos hr]
          constructor
          · rintro ⟨h1, -⟩
            exact absurd (hr.1 ▸ h1) hp
          · rintro ⟨h1, -⟩
            exact absurd (hr.1 ▸ h1) hp
        · rw [if_neg hr]
      unfold open_session
      rw [openCount, List.countP_append]
      have h2 : List.countP
          (fun r => decide (r.project_id = pid ∧ r.stopped = false))
          [({ id := sid, project_id := pid2, stopped := false,
              model_version_id := none, frames_processed := 0 } : SessionRow)]
          = 0 := by
        simp [hp]
      rw [h2]
      show openCount (close_orphaned_sessions t pid2) pid + 0 ≤ 1
      rw [h1]
      simpa using h
  | loopStop sid =>
    refine le_trans (openCount_map_le t pid _ ?_) h
    intro r hr
    by_cases hid : r.id = sid
    · rw [if_pos hid] at hr
      exact absurd hr.2 (by simp)
    · rwa [if_neg hid] at hr
  | setModel sid mv =>
    show openCount (t.map _) pid ≤ 1
    rw [openCount_map_eq t pid _ ?_]
    · exact h
    · intro r
      by_cases hid : r.id = sid
      · rw [if_pos hid]; exact ⟨rfl, rfl⟩
      · rw [if_neg hid]; exact ⟨rfl, rfl⟩
  | setFrames sid n =>
    show openCount (t.map _) pid ≤ 1
    rw [openCount_map_eq t pid _ ?_]
    · exact h
    · intro r
      by_cases hid : r.id = sid
      · rw [if_pos hid]; exact ⟨rfl, rfl⟩
      · rw [if_neg hid]; exact ⟨rfl, rfl⟩

theorem runSessions_openCount_le (evs : List SessionEv) (pid : ℕ) :
    openCount (runSessions evs) pid ≤ 1 := by
  suffices h : ∀ t, openCount t pid ≤ 1 →
      openCount (List.foldl sessionStep t evs) pid ≤ 1 by
    apply h
    simp [openCount]
  induction evs with
  | nil => exact fun t ht => ht
  | cons e evs ih =>
    intro t ht
    exact ih _ (openCount_step_le t e pid ht)

/-! ## Claim theorems: sessions, frames, tick bookkeeping -/

/-- C5: every session table reachable from the empty table through the
code's writes has at most one open session per project; at loop start
`_close_orphaned_sessions` leaves zero open sessions for the project before
`_open_session` adds the single new one. -/
theorem C5_single_open_session (pid : ℕ) :
    (∀ evs : List SessionEv, openCount (runSessions evs) pid ≤ 1)
    ∧ (∀ t : List SessionRow, openCount (close_orphaned_sessions t pid) pid = 0)
    ∧ (∀ (t : List SessionRow) (sid : ℕ),
        openCount (sessionStep t (SessionEv.loopStart pid sid)) pid = 1) :=
  ⟨fun evs => runSessions_openCount_le evs pid,
   fun t => openCount_close_orphaned t pid,
   fun t sid => by
    show openCount (open_session (close_orphaned_sessions t pid) pid sid) pid = 1
    rw [openCount_open_session, openCount_close_orphaned]⟩

/-- C6 (documents the defect): the Frame persisted by `capture_loop` carries
`source = "capture"`, which is not one of the declared values
{"sampler", "inference"} and in particular is not `"sampler"`; the startup
migration in database.py itself rewrites exactly this value to
`"sampler"`. -/
theorem C6_capture_source_is_capture :
    (capture_tick_frame 1 "projects/1/frames/20260101_000000.jpg" none
        none).source = "capture"
    ∧ "capture" ∉ frameSourceValues
    ∧ (capture_tick_frame 1 "projects/1/frames/20260101_000000.jpg" none
        none).source ≠ "sampler"
    ∧ (migrate_capture_source
        [capture_tick_frame 1 "projects/1/frames/20260101_000000.jpg" none
          none]).map FrameRow.source = ["sampler"] := by
  refine ⟨rfl, by decide, by decide, rfl⟩

/-- The bookkeeping the cited tick-tail lines perform when the sampling
configuration is readable: the live tick id advances by exactly one, the
refreshed snapshot publishes it, and `frames_processed` advances by exactly
one and is written to the session row — on both sampling branches. -/
theorem inference_tick_body_spec (st : TickState) (pid sid : ℕ) (now : ℚ)
    (cfg : SamplingConfig) (dets : List Det) (w h : Option ℕ)
    (lp sp : String) (sessions : List SessionRow) :
    (inference_tick_body st pid sid now cfg dets w h lp sp
        sessions).state.live_tick_id = st.live_tick_id + 1
    ∧ (inference_tick_body st pid sid now cfg dets w h lp sp
        sessions).snapshot.tick_id = st.live_tick_id + 1
    ∧ (inference_tick_body st pid sid now cfg dets w h lp sp
        sessions).state.frames_processed = st.frames_processed + 1
    ∧ (∀ r ∈ sessions, r.id = sid →
        { r with frames_processed := st.frames_processed + 1 }
          ∈ (inference_tick_body st pid sid now cfg dets w h lp sp
              sessions).sessions) :=
  ⟨rfl, rfl, rfl,
   fun r hr hid => List.mem_map.mpr ⟨r, hr, by rw [if_pos hid]⟩⟩

/-- C7 (documents the defect): on the shipped `Project` model the sampling
configuration attributes do not exist, so every tick aborts with
`AttributeError` right after the snapshot refresh: the snapshot tick id does
advance by one, but `frames_processed` stays unchanged, the session row is
left untouched and no frame is persisted — against the claim that the
counter increments once per completed detection pass. -/
theorem C7_frames_processed_skipped (st : TickState) (pid sid : ℕ) (now : ℚ)
    (dets : List Det) (w h : Option ℕ) (lp sp : String)
    (sessions : List SessionRow) :
    (inference_tick_run st pid sid now none dets w h lp sp
        sessions).snapshot.tick_id = st.live_tick_id + 1
    ∧ (inference_tick_run st pid sid now none dets w h lp sp
        sessions).state.frames_processed = st.frames_processed
    ∧ (inference_tick_run st pid sid now none dets w h lp sp
        sessions).sessions = sessions
    ∧ (inference_tick_run st pid sid now none dets w h lp sp
        sessions).persisted = none :=
  ⟨rfl, rfl, rfl, rfl⟩

/-! ## Claim theorems: the snapshot cache -/

theorem dget_some_key_mem {κ α : Type} [DecidableEq κ] {m : List (κ × α)}
    {k : κ} {v : α} (h : dget m k = some v) : ∃ p ∈ m, p.1 = k ∧ p.2 = v := by
  unfold dget at h
  rw [Option.map_eq_some'] at h
  obtain ⟨p, hp, hv⟩ := h
  have hmem := List.mem_of_find?_eq_some hp
  have hpred := List.find?_some hp
  simp only [decide_eq_true_eq] at hpred
  exact ⟨p, hmem, hpred, hv⟩

/-- C9 counterexample: `get_latest_inference_live` on `c9State` returns the
fresh dict object 11, through which the caller reads the one-element
detections list; after the stored snapshot's nested detections list object
(address 10) is mutated in place, reading the previously returned copy shows
the mutated two-element list — the nested detections list is shared, so
mutating the stored snapshot does change the value previously returned,
refuting the claim. -/
theorem C9_counterexample :
    (get_latest_inference_live c9State 1).2 = some 11
    ∧ read_detections (get_latest_inference_live c9State 1).1 11
        = some [c9Det]
    ∧ read_detections
        (mutate_list (get_latest_inference_live c9State 1).1 10
          [c9Det, c9Det]) 11 = some [c9Det, c9Det]
    ∧ [c9Det, c9Det] ≠ [c9Det] := by
  refine ⟨rfl, rfl, rfl, fun h => ?_⟩
  simpa using congrArg List.length h

/-- C9 (amended): `get_latest_inference_live` returns a fresh dict object,
distinct from the stored one but carrying the same entries, so mutating a
top-level entry of the stored dict does not change the returned dict's
entries nor vice versa; the nested detections list object, however, is
shared, so an in-place mutation of it is visible through both the stored and
the returned snapshot. -/
theorem C9_shallow_copy (s : PyState) (pid r : ℕ) (d : SnapDict)
    (href : dget s.latest_refs pid = some r)
    (hd : dget s.dicts r = some d)
    (hne : d.isEmpty = false)
    (hfresh : ∀ q ∈ s.dicts, q.1 ≠ s.nextRef) :
    (get_latest_inference_live s pid).2 = some s.nextRef
    ∧ r ≠ s.nextRef
    ∧ dget (get_latest_inference_live s pid).1.dicts s.nextRef = some d
    ∧ dget (get_latest_inference_live s pid).1.dicts r = some d
    ∧ (∀ (k : String) (v : PyVal),
        dget (mutate_dict (get_latest_inference_live s pid).1 r k v).dicts
          s.nextRef = some d)
    ∧ (∀ (k : String) (v : PyVal),
        dget (mutate_dict (get_latest_inference_live s pid).1 s.nextRef k
          v).dicts r = some d)
    ∧ (∀ (lr : ℕ) (xs : List Det),
        dget d "detections" = some (PyVal.pListRef lr) →
        read_detections
          (mutate_list (get_latest_inference_live s pid).1 lr xs) s.nextRef
            = some xs
        ∧ read_detections
            (mutate_list (get_latest_inference_live s pid).1 lr xs) r
              = some xs) := by
  have hrne : r ≠ s.nextRef := by
    obtain ⟨p, hp, hk, -⟩ := dget_some_key_mem hd
    exact hk ▸ hfresh p hp
  have hg : get_latest_inference_live s pid
      = (({ s with
            dicts := dput s.dicts s.nextRef d
            nextRef := s.nextRef + 1 } : PyState), some s.nextRef) := by
    simp only [get_latest_inference_live, href, hd, hne, Bool.false_eq_true,
      if_false]
  have hcopy : dget (get_latest_inference_live s pid).1.dicts s.nextRef
      = some d := by
    rw [hg]
    exact dget_dput_self _ _ _
  have hstored : dget (get_latest_inference_live s pid).1.dicts r = some d := by
    rw [hg]
    show dget (dput s.dicts s.nextRef d) r = some d
    rw [dget_dput_ne _ _ _ _ hrne]
    exact hd
  refine ⟨by rw [hg], hrne, hcopy, hstored, ?_, ?_, ?_⟩
  · intro k v
    unfold mutate_dict
    rw [hstored]
    show dget (dput (get_latest_inference_live s pid).1.dicts r _) s.nextRef
      = some d
    rw [dget_dput_ne _ _ _ _ (Ne.symm hrne)]
    exact hcopy
  · intro k v
    unfold mutate_dict
    rw [hcopy]
    show dget (dput (get_latest_inference_live s pid).1.dicts s.nextRef _) r
      = some d
    rw [dget_dput_ne _ _ _ _ hrne]
    exact hstored
  · intro lr xs hdet
    constructor
    · simp only [read_detections, mutate_list, hcopy, hdet]
      exact dget_dput_self _ _ _
    · simp only [read_detections, mutate_list, hstored, hdet]
      exact dget_dput_self _ _ _

/-- C9 witness for the amended statement: on the concrete example state the
returned copy is object 11 and an in-place mutation of the shared detections
list object 10 is visible both through the returned copy (object 11) and
through the stored snapshot (object 0). -/
theorem C9_witness :
    (get_latest_inference_live c9State 1).2 = some 11
    ∧ read_detections
        (mutate_list (get_latest_inference_live c9State 1).1 10
          [c9Det, c9Det]) 11 = some [c9Det, c9Det]
    ∧ read_detections
        (mutate_list (get_latest_inference_live c9State 1).1 10
          [c9Det, c9Det]) 0 = some [c9Det, c9Det] := by
  obtain ⟨h1, -, -, -, -, -, h7⟩ :=
    C9_shallow_copy c9State 1 0 c9Dict rfl rfl rfl
      (by intro q hq; simp only [c9State, List.mem_singleton] at hq
          rw [hq]; simp [c9State])
  exact ⟨h1, (h7 10 [c9Det, c9Det] rfl).1, (h7 10 [c9Det, c9Det] rfl).2⟩

/-- C10: provided every stored snapshot reference resolves to a dict object,
`get_latest_inference_live` returns none exactly when no snapshot is stored
for the project or the stored snapshot dict is empty (the `if snap:`
truthiness test conflates the two), and it returns a value only when a
non-empty snapshot dict is stored. -/
theorem C10_get_latest_truthiness (s : PyState) (pid : ℕ)
    (hwf : ∀ r, dget s.latest_refs pid = some r →
      ∃ d, dget s.dicts r = some d) :
    ((get_latest_inference_live s pid).2 = none ↔
      dget s.latest_refs pid = none
      ∨ ∃ r, dget s.latest_refs pid = some r ∧ dget s.dicts r = some [])
    ∧ (∀ v, (get_latest_inference_live s pid).2 = some v →
        ∃ r d, dget s.latest_refs pid = some r ∧ dget s.dicts r = some d
          ∧ d ≠ []) := by
  cases hl : dget s.latest_refs pid with
  | none =>
    constructor
    · constructor
      · intro _; exact Or.inl rfl
      · intro _; simp [get_latest_inference_live, hl]
    · intro v hv
      simp [get_latest_inference_live, hl] at hv
  | some r =>
    obtain ⟨d, hd⟩ := hwf r hl
    cases hde : d.isEmpty with
    | true =>
      have hdnil : d = [] := by simpa using hde
      constructor
      · constructor
        · intro _
          exact Or.inr ⟨r, rfl, hdnil ▸ hd⟩
        · intro _
          simp [get_latest_inference_live, hl, hd, hde]
      · intro v hv
        simp [get_latest_inference_live, hl, hd, hde] at hv
    | false =>
      constructor
      · constructor
        · intro hnone
          exfalso
          simp [get_latest_inference_live, hl, hd, hde] at hnone
        · rintro (h | ⟨r2, hr2, hd2⟩)
          · cases h
          · injection hr2 with he
            subst he
            rw [hd] at hd2
            injection hd2 with he2
            rw [he2] at hde
            simp at hde
      · intro v _
        refine ⟨r, d, rfl, hd, ?_⟩
        intro hnil
        rw [hnil] at hde
        simp at hde

/-- C10 witness: a stored empty snapshot dict yields none, exactly like a
missing snapshot. -/
theorem C10_witness :
    (get_latest_inference_live ⟨[], [], [(1, 0)], [(0, [])], [], 1, []⟩ 1).2
      = none
    ∧ (get_latest_inference_live ⟨[], [], [], [], [], 0, []⟩ 1).2 = none :=
  ⟨(C10_get_latest_truthiness ⟨[], [], [(1, 0)], [(0, [])], [], 1, []⟩ 1
      (fun r hr => by cases hr; exact ⟨[], rfl⟩)).1.mpr
    (Or.inr ⟨0, rfl, rfl⟩),
   (C10_get_latest_truthiness ⟨[], [], [], [], [], 0, []⟩ 1
      (fun r hr => nomatch hr)).1.mpr (Or.inl rfl)⟩

end QuietObserver
